import Mathlib

/-!
Verification of the construex_code scraping/migration/classification pipeline.

This file gives a shallow embedding, in Lean 4, of the algorithmic core of the
repository and proves properties of it:

* the name normalizer and tiered fuzzy matcher of
  `002_Scraping_Apify/Scraping_brasil/extract_data_old_webscraping.py`
  (`normalize_company_name`, `calculate_similarity`, `match_gcs_batch`,
  the index construction of `match_companies`);
* the incremental migration guard and batch writer of the same file
  (`get_existing_companies_in_table2`, `filter_new_companies`,
  `migrate_to_table2`);
* the pending-work selector and bounded classification worker of
  `002_Scraping_Apify/Scraping_mexico/ai_photo_vertex_V8.py`
  (`get_next_pending_id_scraping`, `verify_company_completion`,
  `get_images_to_process`, `process_single_image`, `process_images_batch`).

BigQuery tables are modelled as Lean lists of record rows, SQL queries as the
corresponding list computations, and SQL UPDATE statements as maps over the
table.  The external Vertex AI call is modelled by an outcome oracle
(`CallOutcome`): timed out, returned, or raised — exactly the three cases the
worker distinguishes.  The similarity ratio of Python's
`difflib.SequenceMatcher` is an external library call and is modelled as an
abstract function parameter `String → String → Rat`; the facts proved about
the matcher hold for every such function (or under explicitly stated
hypotheses about it).
-/

/-! ## Name Normalizer (extract_data_old_webscraping.py, lines 121-130) -/

/-- Character filter of `re.sub(r'[^a-zA-Z0-9\s]', '', ...)`: keep ASCII
letters, digits and whitespace, drop everything else.  (Lean's
`Char.isWhitespace` covers space, tab, CR, LF; Python's `\s` additionally
covers `\f`/`\v`, which do not occur in the inputs considered here.) -/
def keepAlnumWs (l : List Char) : List Char :=
  l.filter (fun c => c.isAlphanum || c.isWhitespace)

/-- Helper for Python's `str.split()`: split a character list into maximal
whitespace-free words, dropping empty pieces.  The second argument
accumulates the current word, reversed. -/
def splitWsAux : List Char → List Char → List String
  | [], cur => if cur.isEmpty then [] else [String.mk cur.reverse]
  | c :: cs, cur =>
    if c.isWhitespace then
      (if cur.isEmpty then splitWsAux cs [] else String.mk cur.reverse :: splitWsAux cs [])
    else splitWsAux cs (c :: cur)

/-- Python `s.split()` (no separator): whitespace-delimited words, no empties. -/
def wordsOf (s : String) : List String := splitWsAux s.toList []

/-- Embeds `normalize_company_name` (lines 121-130): empty/None input maps to
the empty string; otherwise lowercase, strip special characters, collapse
whitespace runs (via split + single-space join). -/
def normalize_company_name (name : String) : String :=
  if name = "" then ""
  else String.intercalate " " (wordsOf (String.mk (keepAlnumWs (name.toList.map Char.toLower))))

/-- Embeds `calculate_similarity` (lines 132-136): normalize both names, then
apply the external `difflib.SequenceMatcher(None, _, _).ratio()`, modelled by
the abstract parameter `similarityFn`. -/
def calculate_similarity (similarityFn : String → String → Rat) (name1 name2 : String) : Rat :=
  similarityFn (normalize_company_name name1) (normalize_company_name name2)

/-! ## Similarity Matcher (extract_data_old_webscraping.py, lines 240-274) -/

/-- Row of Tabla 1, as read by `get_companies_from_table1` (the `CompanyData`
dataclass, lines 33-44). -/
structure CompanyData where
  link : String
  id_scraping : Nat
  pais : String
  address : String
  category : String
  email : String
  intro : String
  phone : String
  title : String
deriving Repr, DecidableEq

/-- Token-overlap pre-filter of `match_gcs_batch` (lines 255-262): the number
of distinct candidate words also occurring in the indexed normalized name
must be at least `min 2 (number of candidate words)`.  `gcsW` is the deduped
word set of the normalized candidate. -/
def qualifies (gcsW : List String) (norm_name : String) : Bool :=
  decide (min 2 gcsW.length ≤ (gcsW.filter (fun w => decide (w ∈ wordsOf norm_name))).length)

/-- Loop body of the fuzzy branch of `match_gcs_batch` (lines 257-268): for
one index entry, apply the token-overlap pre-filter, then compute the ratio
against the bucket's first record and keep it when it strictly improves the
best similarity and meets the threshold. -/
def match_step (similarityFn : String → String → Rat) (threshold : Rat) (gcs_company : String)
    (gcsW : List String) (acc : Option CompanyData × Rat) (p : String × List CompanyData) :
    Option CompanyData × Rat :=
  if qualifies gcsW p.1 then
    match p.2 with
    | [] => acc
    | c :: _ =>
      let sim := calculate_similarity similarityFn gcs_company c.title
      if sim > acc.2 ∧ sim ≥ threshold then (some c, sim) else acc
  else acc

/-- Fuzzy branch of `match_gcs_batch`: fold `match_step` over the index
entries (Python dict iteration order = insertion order = list order),
starting from `best_match = None`, `best_similarity = 0.0`. -/
def match_loop (similarityFn : String → String → Rat) (threshold : Rat) (gcs_company : String)
    (gcsW : List String) (idx : List (String × List CompanyData)) : Option CompanyData × Rat :=
  idx.foldl (match_step similarityFn threshold gcs_company gcsW) (none, 0)

/-- Word set of the normalized candidate: `set(gcs_normalized.split())`
(line 255). -/
def candidate_words (gcs_company : String) : List String :=
  (wordsOf (normalize_company_name gcs_company)).dedup

/-- Per-candidate body of `match_gcs_batch` (lines 244-271): exact-match the
normalized candidate against the index (similarity 1.0, bucket's first
record); otherwise run the token-overlap/ratio loop.  Returns
`(best_match, best_similarity)`.  The `(none, 0)` result on an empty bucket
is unreachable for indexes built by `build_normalized_index`, whose buckets
are never empty. -/
def match_gcs_one (similarityFn : String → String → Rat)
    (idx : List (String × List CompanyData)) (threshold : Rat) (gcs_company : String) :
    Option CompanyData × Rat :=
  let gn := normalize_company_name gcs_company
  match idx.find? (fun p => p.1 == gn) with
  | some p =>
    match p.2 with
    | c :: _ => (some c, 1)
    | [] => (none, 0)
  | none => match_loop similarityFn threshold gcs_company (candidate_words gcs_company) idx

/-- Embeds `match_gcs_batch` (lines 240-274): match every candidate of the
batch and collect the successful matches. -/
def match_gcs_batch (similarityFn : String → String → Rat)
    (idx : List (String × List CompanyData)) (threshold : Rat) (gcs_batch : List String) :
    List CompanyData :=
  gcs_batch.filterMap (fun g => (match_gcs_one similarityFn idx threshold g).1)

/-- One insertion into the normalized-name index of `match_companies`
(lines 283-288): append to the existing bucket, or add a fresh singleton
bucket at the end. -/
def insert_into_index (idx : List (String × List CompanyData)) (key : String) (c : CompanyData) :
    List (String × List CompanyData) :=
  match idx with
  | [] => [(key, [c])]
  | p :: rest => if p.1 = key then (p.1, p.2 ++ [c]) :: rest else p :: insert_into_index rest key c

/-- Index construction of `match_companies` (lines 283-288): bucket the
Tabla 1 companies by normalized title, in first-occurrence order. -/
def build_normalized_index (companies : List CompanyData) : List (String × List CompanyData) :=
  companies.foldl (fun idx c => insert_into_index idx (normalize_company_name c.title) c) []

/-- Similarity score of a candidate against a record's title, as computed in
the loop (line 264). -/
def simOf (similarityFn : String → String → Rat) (gcs_company : String) (c : CompanyData) : Rat :=
  calculate_similarity similarityFn gcs_company c.title

/-- A record is a qualified head for a candidate word set when it is the first
element of some index bucket whose key passes the token-overlap pre-filter:
exactly the records the fuzzy loop compares ratios against. -/
def QualifiedHead (gcsW : List String) (idx : List (String × List CompanyData))
    (c : CompanyData) : Prop :=
  ∃ p ∈ idx, qualifies gcsW p.1 = true ∧ p.2.head? = some c

/-- Invariant of the fuzzy loop over the index entries seen so far: either no
qualified head has reached the threshold and the accumulator is still the
initial `(none, 0)`, or the accumulator holds a qualified head whose
similarity meets the threshold and is maximal among all qualified heads seen
so far. -/
def matchLoopInv (similarityFn : String → String → Rat) (threshold : Rat) (gcs_company : String)
    (gcsW : List String) (seen : List (String × List CompanyData))
    (acc : Option CompanyData × Rat) : Prop :=
  (acc = (none, 0) ∧
    ∀ c, QualifiedHead gcsW seen c → simOf similarityFn gcs_company c < threshold) ∨
  (∃ c, acc.1 = some c ∧ acc.2 = simOf similarityFn gcs_company c ∧ threshold ≤ acc.2 ∧
    QualifiedHead gcsW seen c ∧
    ∀ c2, QualifiedHead gcsW seen c2 → simOf similarityFn gcs_company c2 ≤ acc.2)

/-! ## Incremental Migration Guard + Batch Upsert Writer
(extract_data_old_webscraping.py, lines 333-445) -/

/-- Row of Tabla 2, with the fields written by `migrate_to_table2`
(lines 404-419).  `created_at` is the Ecuador timestamp, modelled as a `Nat`
parameter of the run. -/
structure Table2Row where
  link : Option String
  id_scraping : Nat
  pais : Option String
  processed : Bool
  is_downloaded : Bool
  address : Option String
  category : Option String
  email : Option String
  intro : Option String
  phone : Option String
  title : Option String
  created_at : Nat
  images_processed : Bool
  company_json : Bool
deriving Repr, DecidableEq

/-- Python's `x or None` on a string field: empty becomes None/null. -/
def orNone (s : String) : Option String := if s = "" then none else some s

/-- Row built for one company by `migrate_to_table2` (lines 404-419). -/
def to_table2_row (created_at : Nat) (c : CompanyData) : Table2Row :=
  { link := orNone c.link
    id_scraping := c.id_scraping
    pais := orNone c.pais
    processed := true
    is_downloaded := true
    address := orNone c.address
    category := orNone c.category
    email := orNone c.email
    intro := orNone c.intro
    phone := orNone c.phone
    title := orNone c.title
    created_at := created_at
    images_processed := false
    company_json := false }

/-- Embeds `get_existing_companies_in_table2` (lines 333-357): SELECT DISTINCT
id_scraping from the destination.  `query_ok` models whether the BigQuery
query succeeds; on failure the `except` branch returns the empty set. -/
def get_existing_companies_in_table2 (query_ok : Bool) (dest : List Table2Row) : List Nat :=
  if query_ok then (dest.map (fun r => r.id_scraping)).dedup else []

/-- Embeds `filter_new_companies` (lines 359-379): keep only candidates whose
id_scraping is absent from the destination's existing-key set. -/
def filter_new_companies (query_ok : Bool) (dest : List Table2Row)
    (companies : List CompanyData) : List CompanyData :=
  if companies = [] then []
  else
    let existing := get_existing_companies_in_table2 query_ok dest
    companies.filter (fun c => decide (c.id_scraping ∉ existing))

/-- Embeds `migrate_to_table2` (lines 381-445): filter out already-migrated
keys, then bulk-append one row per remaining company (WRITE_APPEND load job).
Returns `(success, migrated companies, new destination state)`; an empty
candidate list returns success = false (lines 385-387), an empty filtered
list returns success = true with nothing written (lines 392-395). -/
def migrate_to_table2 (query_ok : Bool) (created_at : Nat) (dest : List Table2Row)
    (companies : List CompanyData) : Bool × List CompanyData × List Table2Row :=
  if companies = [] then (false, [], dest)
  else
    let new_companies := filter_new_companies query_ok dest companies
    if new_companies = [] then (true, [], dest)
    else (true, new_companies, dest ++ new_companies.map (to_table2_row created_at))

/-- Number of distinct id_scraping keys in the destination table. -/
def distinct_key_count (dest : List Table2Row) : Nat :=
  ((dest.map (fun r => r.id_scraping)).dedup).length

/-! ## Pending-Work Selector + Bounded Classification Worker
(ai_photo_vertex_V8.py) -/

/-- Row of the cleaned images table, with the fields read and written by
ai_photo_vertex_V8.py (see also the insert schema of
`insert_images_to_table3`, extract_data_old_webscraping.py lines 745-763). -/
structure ImageRow where
  id_photo_cleaned : Nat
  id_scraping : Nat
  image_type : String
  img_path : String
  is_construction_image : Option Bool
  product_information : Option String
  token_input : Option Nat
  token_output : Option Nat
  model_used : Option String
  execution_time_seconds : Option Nat
  processed_ia_at : Option Nat
  time_out : Option Bool
deriving Repr, DecidableEq

/-- Pending predicate shared by the selector and the per-entity image query
(lines 46-48 and 361-363): a post image, not yet classified, and not timed
out (`time_out IS NULL OR time_out = FALSE`). -/
def isPendingRow (r : ImageRow) : Bool :=
  r.image_type == "post_image" && r.is_construction_image == none &&
    (r.time_out == none || r.time_out == some false)

/-- Embeds `get_next_pending_id_scraping` (lines 38-63): group the pending
post images by id_scraping, order ascending, return the first entity — i.e.
the least id_scraping owning at least one pending image, or none. -/
def get_next_pending_id_scraping (t : List ImageRow) : Option Nat :=
  ((t.filter isPendingRow).map (fun r => r.id_scraping)).min?

/-- Embeds `verify_company_completion` (lines 65-101): count the entity's
post images with `is_construction_image IS NULL` (note: no time_out filter
here) and report whether that count is zero. -/
def verify_company_completion (t : List ImageRow) (id_scraping : Nat) : Bool :=
  (t.filter (fun r =>
    r.image_type == "post_image" && r.is_construction_image == none &&
      r.id_scraping == id_scraping)).length == 0

/-- Insertion step for ordering rows by ascending id_photo_cleaned. -/
def insertSorted (r : ImageRow) : List ImageRow → List ImageRow
  | [] => [r]
  | x :: xs =>
    if r.id_photo_cleaned ≤ x.id_photo_cleaned then r :: x :: xs else x :: insertSorted r xs

/-- Sort rows by ascending id_photo_cleaned (the ORDER BY of the selection
query, line 365). -/
def sortByPhotoId : List ImageRow → List ImageRow
  | [] => []
  | x :: xs => insertSorted x (sortByPhotoId xs)

/-- Embeds `get_images_to_process` for a given entity (lines 357-372): the
entity's pending post images, ordered by ascending id_photo_cleaned. -/
def get_images_to_process (t : List ImageRow) (id_scraping : Nat) : List ImageRow :=
  sortByPhotoId (t.filter (fun r => isPendingRow r && r.id_scraping == id_scraping))

/-- Outcome of one `analyze_image_with_timeout` invocation, the three cases
`process_single_image` distinguishes (lines 590-645): the call exceeded the
60s bound; the call returned `(is_construction, product_info, metadata)`
(with token counts, wall-clock seconds and timestamp as observed); or the
call raised an exception. -/
inductive CallOutcome where
  | timedOut : CallOutcome
  | ok (is_construction : Bool) (product_info : Option String)
      (token_input token_output : Nat) (execution_time_seconds : Nat)
      (processed_at : Nat) : CallOutcome
  | raised (execution_time_seconds : Nat) (processed_at : Nat) : CallOutcome
deriving Repr, DecidableEq

/-- Stand-in for the MODEL_ID environment configuration (`self.model_id`). -/
def model_id : String := "MODEL_ID"

/-- Field update applied to the matched row: the timeout branch only sets
`time_out = TRUE` (lines 601-614); the other two branches run
`update_image_classification` (lines 517-569) — the error branch with
`is_construction = False` and zeroed token metadata (lines 639-641). -/
def applyOutcome (o : CallOutcome) (r : ImageRow) : ImageRow :=
  match o with
  | CallOutcome.timedOut => { r with time_out := some true }
  | CallOutcome.ok b p tokIn tokOut et ts =>
    { r with is_construction_image := some b, product_information := p,
             token_input := some tokIn, token_output := some tokOut,
             model_used := some model_id, execution_time_seconds := some et,
             processed_ia_at := some ts }
  | CallOutcome.raised et ts =>
    { r with is_construction_image := some false, product_information := none,
             token_input := some 0, token_output := some 0,
             model_used := some model_id, execution_time_seconds := some et,
             processed_ia_at := some ts }

/-- One UPDATE ... WHERE id_photo_cleaned = rid, applied row-wise. -/
def stepRow (o : CallOutcome) (rid : Nat) (row : ImageRow) : ImageRow :=
  if row.id_photo_cleaned == rid then applyOutcome o row else row

/-- Embeds `process_single_image` (lines 571-645) as a table transformer:
update the matched row according to the call outcome and return the value
the Python function returns (None on timeout, the construction boolean on
success, False on a raised error). -/
def process_single_image (o : CallOutcome) (t : List ImageRow) (rid : Nat) :
    List ImageRow × Option Bool :=
  (t.map (stepRow o rid),
   match o with
   | CallOutcome.timedOut => none
   | CallOutcome.ok b _ _ _ _ _ => some b
   | CallOutcome.raised _ _ => some false)

/-- Counters kept by the per-entity loop of `process_images_batch`
(lines 681-705). -/
structure BatchCounters where
  processed_count : Nat
  success_count : Nat
  error_count : Nat
  timeout_count : Nat
deriving Repr, DecidableEq

/-- Counter update per image result (lines 695-705): timeout; success
(processed and successful); error (processed with error). -/
def bumpCounters (c : BatchCounters) : Option Bool → BatchCounters
  | none => { c with timeout_count := c.timeout_count + 1 }
  | some true =>
    { c with processed_count := c.processed_count + 1, success_count := c.success_count + 1 }
  | some false =>
    { c with processed_count := c.processed_count + 1, error_count := c.error_count + 1 }

/-- Per-entity image loop of `process_images_batch` (lines 687-714): process
the selected images in order against the outcome oracle `env`, threading the
table state and accumulating counters. -/
def process_entity_images (env : ImageRow → CallOutcome) :
    List ImageRow → List ImageRow → List ImageRow × BatchCounters
  | t, [] => (t, ⟨0, 0, 0, 0⟩)
  | t, r :: rs =>
    let step := process_single_image (env r) t r.id_photo_cleaned
    let rest := process_entity_images env step.1 rs
    (rest.1, bumpCounters rest.2 step.2)

/-- Row of the raw companies table, with the fields
`update_company_images_processed` and `get_company_context` touch. -/
structure CompanyRow where
  id_scraping : Nat
  title : String
  intro : String
  images_processed : Bool
deriving Repr, DecidableEq

/-- Embeds `update_company_images_processed` (lines 148-176): UPDATE the raw
table's flag for the entity. -/
def update_company_images_processed (raw : List CompanyRow) (id_scraping : Nat) (b : Bool) :
    List CompanyRow :=
  raw.map (fun c => if c.id_scraping == id_scraping then { c with images_processed := b } else c)

/-- Result of one `process_images_batch` run: the two table states, the
selected entity, the counters, the value of the final completion re-query
(line 717, logged only), and whether the images_processed flag was written
(lines 736-740). -/
structure BatchResult where
  raw : List CompanyRow
  table : List ImageRow
  selected : Option Nat
  stats : BatchCounters
  final_verify : Option Bool
  flag_updated : Bool
deriving Repr, DecidableEq

/-- Embeds `process_images_batch` (lines 647-745): select the next pending
entity, double-check completion, fetch and process its pending images,
re-query completion (logged), and set the raw table's images_processed flag
iff at least one image was processed or successful (lines 736-740). -/
def process_images_batch (env : ImageRow → CallOutcome) (raw : List CompanyRow)
    (t : List ImageRow) : BatchResult :=
  match get_next_pending_id_scraping t with
  | none => ⟨raw, t, none, ⟨0, 0, 0, 0⟩, none, false⟩
  | some e =>
    if verify_company_completion t e then ⟨raw, t, some e, ⟨0, 0, 0, 0⟩, none, false⟩
    else
      let images := get_images_to_process t e
      if images.isEmpty then ⟨raw, t, some e, ⟨0, 0, 0, 0⟩, none, false⟩
      else
        let res := process_entity_images env t images
        let fv := verify_company_completion res.1 e
        if 0 < res.2.processed_count ∨ 0 < res.2.success_count then
          ⟨update_company_images_processed raw e true, res.1, some e, res.2, some fv, true⟩
        else ⟨raw, res.1, some e, res.2, some fv, false⟩

/-! ## Concrete instances used by witnesses and counterexamples -/

/-- Company whose title consists only of special characters: its normalized
name is the empty string. -/
def c_bang : CompanyData :=
  { link := "", id_scraping := 1, pais := "", address := "", category := "", email := "",
    intro := "", phone := "", title := "!!!" }

/-- Company with a regular title, for the exact-match example. -/
def c_acme : CompanyData :=
  { link := "", id_scraping := 2, pais := "", address := "", category := "", email := "",
    intro := "", phone := "", title := "Acme Steel Co" }

/-- Company with a two-word title, for the fuzzy-match example. -/
def c_steel : CompanyData :=
  { link := "", id_scraping := 3, pais := "", address := "", category := "", email := "",
    intro := "", phone := "", title := "Acme Steel" }

/-- Candidate record used in the duplicate-key runs. -/
def c_dup : CompanyData :=
  { link := "", id_scraping := 1, pais := "", address := "", category := "", email := "",
    intro := "", phone := "", title := "Construtora Alfa" }

/-- Candidate records with distinct keys. -/
def c_keyA : CompanyData := { c_dup with id_scraping := 4, title := "Construtora Beta" }

def c_keyB : CompanyData := { c_dup with id_scraping := 5, title := "Construtora Gama" }

/-- Similarity oracle that scores every pair 0. -/
def sim_zero : String → String → Rat := fun _ _ => 0

/-- Similarity oracle that scores every pair 7/10. -/
def sim_seven : String → String → Rat := fun _ _ => mkRat 7 10

/-- Similarity oracle agreeing with difflib on an empty first argument:
the ratio of the empty string against any nonempty string is 0. -/
def sim_empty_aware : String → String → Rat := fun _ b => if b = "" then 1 else 0

/-- Unclassified post image of entity 1. -/
def r10 : ImageRow :=
  { id_photo_cleaned := 10, id_scraping := 1, image_type := "post_image",
    img_path := "https://storage.googleapis.com/b/1_image1.jpg",
    is_construction_image := none, product_information := none, token_input := none,
    token_output := none, model_used := none, execution_time_seconds := none,
    processed_ia_at := none, time_out := none }

/-- Second unclassified post image of entity 1. -/
def r11 : ImageRow :=
  { r10 with
      id_photo_cleaned := 11,
      img_path := "https://storage.googleapis.com/b/1_image2.jpg" }

/-- Profile image of entity 2 (not a post image, so never pending). -/
def r20 : ImageRow :=
  { r10 with
      id_photo_cleaned := 20, id_scraping := 2, image_type := "profile_image",
      img_path := "https://storage.googleapis.com/b/2_profile.jpg" }

/-- Images table with two pending post images for entity 1 and none for
entity 2. -/
def t0 : List ImageRow := [r10, r11, r20]

/-- Outcome oracle: image 10 classifies successfully as construction, every
other call times out. -/
def env0 : ImageRow → CallOutcome := fun r =>
  if r.id_photo_cleaned == 10 then CallOutcome.ok true none 5 7 2 100
  else CallOutcome.timedOut

/-- Raw companies table holding entity 1, flag not yet set. -/
def raw0 : List CompanyRow :=
  [{ id_scraping := 1, title := "Empresa Uno", intro := "Construcciones",
     images_processed := false }]

/-- Images table after both entity-1 images resolved (one construction, one
not). -/
def t_done : List ImageRow :=
  [{ r10 with is_construction_image := some true },
   { r11 with is_construction_image := some false }, r20]

/-! ## Theorems

Helper lemmas come first, then one theorem per claim (with witnesses and
counterexamples where applicable). -/

theorem to_table2_row_id (ts : Nat) (c : CompanyData) :
    (to_table2_row ts c).id_scraping = c.id_scraping := rfl

theorem filter_new_companies_ne_nil (dest : List Table2Row) (cands : List CompanyData)
    (ok : Bool) (hc : cands ≠ []) :
    filter_new_companies ok dest cands
      = cands.filter
          (fun c => decide (c.id_scraping ∉ get_existing_companies_in_table2 ok dest)) := by
  simp [filter_new_companies, hc]

theorem get_existing_true (dest : List Table2Row) :
    get_existing_companies_in_table2 true dest = (dest.map (fun r => r.id_scraping)).dedup := rfl

/-- Claim C2: migration is idempotent across runs — running
`migrate_to_table2` (which applies `filter_new_companies`) twice on the same
candidate set, with the destination state carried over and the existing-keys
query succeeding, leaves the count of distinct id_scraping keys in the
destination unchanged after the second run. -/
theorem c2_migration_idempotent (dest : List Table2Row) (cands : List CompanyData)
    (ts1 ts2 : Nat) :
    distinct_key_count
        (migrate_to_table2 true ts2 (migrate_to_table2 true ts1 dest cands).2.2 cands).2.2
      = distinct_key_count (migrate_to_table2 true ts1 dest cands).2.2 := by
  by_cases hc : cands = []
  · subst hc; simp [migrate_to_table2]
  · by_cases h1 : filter_new_companies true dest cands = []
    · simp [migrate_to_table2, hc, h1]
    · have hd1 : (migrate_to_table2 true ts1 dest cands).2.2
          = dest ++ (filter_new_companies true dest cands).map (to_table2_row ts1) := by
        simp [migrate_to_table2, hc, h1]
      have h2 : filter_new_companies true (migrate_to_table2 true ts1 dest cands).2.2 cands
          = [] := by
        rw [filter_new_companies_ne_nil _ _ _ hc]
        rw [List.filter_eq_nil_iff]
        intro c hcmem
        simp only [decide_eq_true_eq, Decidable.not_not]
        rw [hd1, get_existing_true]
        simp only [List.mem_dedup, List.map_append, List.mem_append]
        by_cases hid : c.id_scraping ∈ (dest.map (fun r => r.id_scraping)).dedup
        · exact Or.inl (List.mem_dedup.mp hid)
        · right
          have hsurv : c ∈ filter_new_companies true dest cands := by
            rw [filter_new_companies_ne_nil _ _ _ hc]
            refine List.mem_filter.mpr ⟨hcmem, ?_⟩
            rw [get_existing_true]
            simpa using hid
          rw [List.map_map]
          exact List.mem_map.mpr ⟨c, hsurv, rfl⟩
      rw [hd1] at h2 ⊢
      generalize hg :
        dest ++ (filter_new_companies true dest cands).map (to_table2_row ts1) = D at h2 ⊢
      simp [migrate_to_table2, hc, h2]

/-- Claim C3 counterexample: the candidate list `[c_dup, c_dup]` — the
situation produced when two different candidate names match the same record —
makes a single `migrate_to_table2` run insert two destination rows with the
same id_scraping key. -/
theorem c3_counterexample :
    ((migrate_to_table2 true 0 [] [c_dup, c_dup]).2.2).map (fun r => r.id_scraping) = [1, 1] ∧
    ¬ (((migrate_to_table2 true 0 [] [c_dup, c_dup]).2.2).map
        (fun r => r.id_scraping)).Nodup := by
  exact ⟨by decide, by decide⟩

/-- Claim C3 (amended): a single `migrate_to_table2` run preserves uniqueness
of id_scraping provided the candidate list itself carries no duplicate
id_scraping — it never inserts a row whose key is already in the destination,
and distinct candidates yield distinct inserted keys.  (As stated the claim
fails: duplicates inside one candidate list are inserted as-is, see
`c3_counterexample`.) -/
theorem c3_unique_keys_preserved (dest : List Table2Row) (cands : List CompanyData) (ts : Nat)
    (hc : (cands.map (fun c => c.id_scraping)).Nodup)
    (hd : (dest.map (fun r => r.id_scraping)).Nodup) :
    (((migrate_to_table2 true ts dest cands).2.2).map (fun r => r.id_scraping)).Nodup := by
  by_cases hcnil : cands = []
  · simpa [migrate_to_table2, hcnil] using hd
  · by_cases h1 : filter_new_companies true dest cands = []
    · simpa [migrate_to_table2, hcnil, h1] using hd
    · have hres : (migrate_to_table2 true ts dest cands).2.2
          = dest ++ (filter_new_companies true dest cands).map (to_table2_row ts) := by
        simp [migrate_to_table2, hcnil, h1]
      rw [hres, List.map_append, List.map_map]
      have hmapid : ((fun r => Table2Row.id_scraping r) ∘ to_table2_row ts)
          = fun c => c.id_scraping := rfl
      rw [hmapid, List.nodup_append]
      have hfs : filter_new_companies true dest cands
          = cands.filter
              (fun c => decide (c.id_scraping ∉ get_existing_companies_in_table2 true dest)) :=
        filter_new_companies_ne_nil _ _ _ hcnil
      refine ⟨hd, ?_, ?_⟩
      · rw [hfs]
        exact ((List.filter_sublist cands).map (fun c => c.id_scraping)).nodup hc
      · intro x hx1 hx2
        rw [hfs] at hx2
        rcases List.mem_map.mp hx2 with ⟨c, hcmem, hceq⟩
        have hpred := (List.mem_filter.mp hcmem).2
        rw [decide_eq_true_eq] at hpred
        exact hpred (by
          rw [get_existing_true, List.mem_dedup, hceq]; exact hx1)

/-- Claim C3 witness: instantiation of `c3_unique_keys_preserved` with two
distinct-key candidates migrated into an empty destination. -/
theorem c3_unique_keys_preserved_witness :
    (((migrate_to_table2 true 0 [] [c_keyA, c_keyB]).2.2).map
        (fun r => r.id_scraping)).Nodup :=
  c3_unique_keys_preserved [] [c_keyA, c_keyB] 0 (by decide) (by decide)

/-- Claim C10: if the existing-keys query fails, the Incremental Migration
Guard returns the empty key set, `filter_new_companies` then classifies every
candidate as new, and a run of `migrate_to_table2` under query failure can
insert a key that the destination already holds — the no-duplicate guarantee
holds only when the existing-keys query succeeds. -/
theorem c10_query_failure_skips_filter (dest : List Table2Row) (cands : List CompanyData) :
    get_existing_companies_in_table2 false dest = [] ∧
    filter_new_companies false dest cands = cands ∧
    ((migrate_to_table2 false 0 [to_table2_row 0 c_dup] [c_dup]).2.2).map
        (fun r => r.id_scraping) = [1, 1] := by
  refine ⟨rfl, ?_, by decide⟩
  by_cases hc : cands = []
  · simp [filter_new_companies, hc]
  · rw [filter_new_companies_ne_nil _ _ _ hc]
    exact List.filter_eq_self.mpr (fun a _ => by simp [get_existing_companies_in_table2])

theorem qualifiedHead_append {gcsW : List String} {S T : List (String × List CompanyData)}
    {c : CompanyData} :
    QualifiedHead gcsW (S ++ T) c ↔ QualifiedHead gcsW S c ∨ QualifiedHead gcsW T c := by
  constructor
  · rintro ⟨p, hp, h1, h2⟩
    rcases List.mem_append.mp hp with h | h
    · exact Or.inl ⟨p, h, h1, h2⟩
    · exact Or.inr ⟨p, h, h1, h2⟩
  · rintro (⟨p, hp, h1, h2⟩ | ⟨p, hp, h1, h2⟩)
    · exact ⟨p, List.mem_append_left _ hp, h1, h2⟩
    · exact ⟨p, List.mem_append_right _ hp, h1, h2⟩

theorem qualifiedHead_singleton {gcsW : List String} {p : String × List CompanyData}
    {c : CompanyData} :
    QualifiedHead gcsW [p] c ↔ qualifies gcsW p.1 = true ∧ p.2.head? = some c := by
  constructor
  · rintro ⟨q, hq, h1, h2⟩
    rcases List.mem_singleton.mp hq with rfl
    exact ⟨h1, h2⟩
  · rintro ⟨h1, h2⟩
    exact ⟨p, List.mem_singleton_self p, h1, h2⟩

theorem matchLoopInv_step (f : String → String → Rat) (θ : Rat) (g : String) (gcsW : List String)
    (hθ : 0 < θ) (S : List (String × List CompanyData)) (acc : Option CompanyData × Rat)
    (p : String × List CompanyData) (h : matchLoopInv f θ g gcsW S acc) :
    matchLoopInv f θ g gcsW (S ++ [p]) (match_step f θ g gcsW acc p) := by
  by_cases hq : qualifies gcsW p.1
  · cases hp2 : p.2 with
    | nil =>
      have hstep : match_step f θ g gcsW acc p = acc := by
        simp [match_step, hq, hp2]
      rw [hstep]
      have hext : ∀ c, QualifiedHead gcsW (S ++ [p]) c → QualifiedHead gcsW S c := by
        intro c hc
        rcases qualifiedHead_append.mp hc with h1 | h1
        · exact h1
        · rcases qualifiedHead_singleton.mp h1 with ⟨_, hh⟩
          rw [hp2] at hh
          cases hh
      rcases h with ⟨ha, hb⟩ | ⟨c0, k1, k2, k3, k4, k5⟩
      · exact Or.inl ⟨ha, fun c hc => hb c (hext c hc)⟩
      · exact Or.inr ⟨c0, k1, k2, k3,
          qualifiedHead_append.mpr (Or.inl k4), fun c2 hc2 => k5 c2 (hext c2 hc2)⟩
    | cons c cs =>
      by_cases hg2 : calculate_similarity f g c.title > acc.2 ∧
          calculate_similarity f g c.title ≥ θ
      · have hstep : match_step f θ g gcsW acc p
            = (some c, calculate_similarity f g c.title) := by
          simp [match_step, hq, hp2, hg2]
        rw [hstep]
        refine Or.inr ⟨c, rfl, rfl, hg2.2, ?_, ?_⟩
        · exact qualifiedHead_append.mpr
            (Or.inr (qualifiedHead_singleton.mpr ⟨hq, by rw [hp2]; rfl⟩))
        · intro c2 hc2
          rcases qualifiedHead_append.mp hc2 with h1 | h1
          · rcases h with ⟨ha, hb⟩ | ⟨c0, k1, k2, k3, k4, k5⟩
            · exact le_of_lt (lt_of_lt_of_le (hb c2 h1) hg2.2)
            · exact le_of_lt (lt_of_le_of_lt (k5 c2 h1) hg2.1)
          · rcases qualifiedHead_singleton.mp h1 with ⟨_, hh⟩
            rw [hp2] at hh
            have hcc : c = c2 := by
              simpa using hh
            rw [← hcc]
            exact le_refl _
      · have hstep : match_step f θ g gcsW acc p = acc := by
          simp only [match_step, hq, if_pos, hp2]
          rw [if_neg hg2]
        rw [hstep]
        rcases h with ⟨ha, hb⟩ | ⟨c0, k1, k2, k3, k4, k5⟩
        · refine Or.inl ⟨ha, ?_⟩
          intro c2 hc2
          rcases qualifiedHead_append.mp hc2 with h1 | h1
          · exact hb c2 h1
          · rcases qualifiedHead_singleton.mp h1 with ⟨_, hh⟩
            rw [hp2] at hh
            have hcc : c = c2 := by simpa using hh
            rw [← hcc]
            by_contra hcon
            push_neg at hcon
            apply hg2
            constructor
            · have hacc2 : acc.2 = 0 := by rw [ha]
              rw [hacc2]
              exact lt_of_lt_of_le hθ hcon
            · exact hcon
        · refine Or.inr ⟨c0, k1, k2, k3, qualifiedHead_append.mpr (Or.inl k4), ?_⟩
          intro c2 hc2
          rcases qualifiedHead_append.mp hc2 with h1 | h1
          · exact k5 c2 h1
          · rcases qualifiedHead_singleton.mp h1 with ⟨_, hh⟩
            rw [hp2] at hh
            have hcc : c = c2 := by simpa using hh
            rw [← hcc]
            by_contra hcon
            push_neg at hcon
            apply hg2
            exact ⟨hcon, le_trans k3 (le_of_lt hcon)⟩
  · have hstep : match_step f θ g gcsW acc p = acc := by
      simp [match_step, hq]
    rw [hstep]
    have hext : ∀ c, QualifiedHead gcsW (S ++ [p]) c → QualifiedHead gcsW S c := by
      intro c hc
      rcases qualifiedHead_append.mp hc with h1 | h1
      · exact h1
      · rcases qualifiedHead_singleton.mp h1 with ⟨hh, _⟩
        exact absurd hh hq
    rcases h with ⟨ha, hb⟩ | ⟨c0, k1, k2, k3, k4, k5⟩
    · exact Or.inl ⟨ha, fun c hc => hb c (hext c hc)⟩
    · exact Or.inr ⟨c0, k1, k2, k3,
        qualifiedHead_append.mpr (Or.inl k4), fun c2 hc2 => k5 c2 (hext c2 hc2)⟩

theorem matchLoopInv_foldl (f : String → String → Rat) (θ : Rat) (g : String)
    (gcsW : List String) (hθ : 0 < θ) :
    ∀ (idx S : List (String × List CompanyData)) (acc : Option CompanyData × Rat),
      matchLoopInv f θ g gcsW S acc →
      matchLoopInv f θ g gcsW (S ++ idx) (idx.foldl (match_step f θ g gcsW) acc) := by
  intro idx
  induction idx with
  | nil =>
    intro S acc h
    simpa using h
  | cons p rest ih =>
    intro S acc h
    rw [List.foldl_cons]
    have h2 := ih (S ++ [p]) _ (matchLoopInv_step f θ g gcsW hθ S acc p h)
    simpa [List.append_assoc] using h2

/-- Claim C7: with no exact match and a positive configured threshold, the
matcher returns a qualifying bucket head of maximal similarity ratio among
all qualifying buckets whenever that maximum reaches the threshold, returns
none exactly when no qualifying bucket reaches the threshold, and never
returns a record whose ratio is below the threshold. -/
theorem c7_best_match_threshold (f : String → String → Rat)
    (idx : List (String × List CompanyData)) (θ : Rat) (g : String)
    (hθ : 0 < θ)
    (hfind : idx.find? (fun p => p.1 == normalize_company_name g) = none) :
    (∀ c, (match_gcs_one f idx θ g).1 = some c →
       QualifiedHead (candidate_words g) idx c ∧
       (match_gcs_one f idx θ g).2 = simOf f g c ∧
       θ ≤ simOf f g c ∧
       ∀ c2, QualifiedHead (candidate_words g) idx c2 → simOf f g c2 ≤ simOf f g c) ∧
    ((match_gcs_one f idx θ g).1 = none →
       ∀ c2, QualifiedHead (candidate_words g) idx c2 → simOf f g c2 < θ) ∧
    ((∃ c2, QualifiedHead (candidate_words g) idx c2 ∧ θ ≤ simOf f g c2) →
       ∃ c, (match_gcs_one f idx θ g).1 = some c) := by
  have hres : match_gcs_one f idx θ g = match_loop f θ g (candidate_words g) idx := by
    simp only [match_gcs_one]
    rw [hfind]
  have h0 : matchLoopInv f θ g (candidate_words g) [] (none, 0) := by
    left
    refine ⟨rfl, ?_⟩
    rintro c ⟨p, hp, _⟩
    exact absurd hp (List.not_mem_nil p)
  have hInv : matchLoopInv f θ g (candidate_words g) idx
      (match_loop f θ g (candidate_words g) idx) := by
    have h1 := matchLoopInv_foldl f θ g (candidate_words g) hθ idx [] (none, 0) h0
    simpa [match_loop] using h1
  rw [hres]
  rcases hInv with ⟨ha, hb⟩ | ⟨c0, k1, k2, k3, k4, k5⟩
  · refine ⟨?_, ?_, ?_⟩
    · intro c hc
      rw [ha] at hc
      cases hc
    · intro _ c2 hc2
      exact hb c2 hc2
    · rintro ⟨c2, hc2, hθ2⟩
      exact absurd (hb c2 hc2) (not_lt.mpr hθ2)
  · refine ⟨?_, ?_, ?_⟩
    · intro c hc
      have hcc : c0 = c := Option.some.inj (k1 ▸ hc)
      rw [← hcc]
      refine ⟨k4, k2, ?_, ?_⟩
      · rw [← k2]
        exact k3
      · intro c2 hc2
        rw [← k2]
        exact k5 c2 hc2
    · intro hnone
      rw [k1] at hnone
      cases hnone
    · intro _
      exact ⟨c0, k1⟩

/-- Claim C7 witness: candidate "Acme Steel Co" against the index of
{"acme steel"} with threshold 1/2 and a ratio oracle returning 7/10: the
bucket qualifies and its head is returned with ratio at least the
threshold. -/
theorem c7_best_match_threshold_witness :
    QualifiedHead (candidate_words "Acme Steel Co") (build_normalized_index [c_steel]) c_steel ∧
    mkRat 1 2 ≤ simOf sim_seven "Acme Steel Co" c_steel := by
  have h := (c7_best_match_threshold sim_seven (build_normalized_index [c_steel]) (mkRat 1 2)
    "Acme Steel Co" (by decide) (by decide)).1 c_steel (by decide)
  exact ⟨h.1, h.2.2.1⟩

/-- Claim C6: exact-match precedence — when the normalized candidate equals
an index key, the matcher returns that bucket's first record with similarity
1.0, for every similarity oracle and threshold (so no ratio comparison
influences the result and no lower-scoring alternative is ever preferred). -/
theorem c6_exact_match_precedence (idx : List (String × List CompanyData)) (g : String)
    (p : String × List CompanyData) (c : CompanyData) (rest : List CompanyData)
    (hfind : idx.find? (fun q => q.1 == normalize_company_name g) = some p)
    (hbucket : p.2 = c :: rest) :
    ∀ (similarityFn : String → String → Rat) (threshold : Rat),
      match_gcs_one similarityFn idx threshold g = (some c, 1) := by
  intro f θ
  simp only [match_gcs_one]
  rw [hfind]
  simp only [hbucket]

/-- Claim C6 witness: candidate "Acme Steel Co." exact-matches the index key
of the company titled "Acme Steel Co" (both normalize to "acme steel co"),
with a similarity oracle that scores everything 0. -/
theorem c6_exact_match_precedence_witness :
    match_gcs_one sim_zero (build_normalized_index [c_acme]) (mkRat 1 2) "Acme Steel Co."
      = (some c_acme, 1) :=
  c6_exact_match_precedence (build_normalized_index [c_acme]) "Acme Steel Co."
    ("acme steel co", [c_acme]) c_acme [] (by decide) rfl sim_zero (mkRat 1 2)

theorem match_loop_empty_words (similarityFn : String → String → Rat) (threshold : Rat)
    (g : String) (hg : normalize_company_name g = "")
    (hsim : ∀ s, s ≠ "" → similarityFn "" s = 0) :
    ∀ idx : List (String × List CompanyData),
      (∀ p ∈ idx, p.1 ≠ "") →
      (∀ p ∈ idx, ∀ c ∈ p.2, normalize_company_name c.title = p.1) →
      match_loop similarityFn threshold g [] idx = (none, 0) := by
  intro idx
  induction idx with
  | nil => intro _ _; rfl
  | cons p rest ih =>
    intro hkeys hwf
    have hstep : match_step similarityFn threshold g [] (none, 0) p = (none, 0) := by
      unfold match_step
      cases hp2 : p.2 with
      | nil => simp [hp2]
      | cons c cs =>
        simp only [hp2]
        have hsc : calculate_similarity similarityFn g c.title = 0 := by
          have htitle : normalize_company_name c.title = p.1 :=
            hwf p (List.mem_cons_self p rest) c (by rw [hp2]; exact List.mem_cons_self c cs)
          unfold calculate_similarity
          rw [hg, htitle]
          exact hsim p.1 (hkeys p (List.mem_cons_self p rest))
        rw [hsc]
        have hcond : ¬ ((0 : Rat) > (none (α := CompanyData), (0 : Rat)).2 ∧
            (0 : Rat) ≥ threshold) := by
          rintro ⟨hlt, _⟩
          exact lt_irrefl 0 hlt
        simp [hcond]
    unfold match_loop at *
    rw [List.foldl_cons, hstep]
    exact ih (fun q hq => hkeys q (List.mem_cons_of_mem p hq))
      (fun q hq => hwf q (List.mem_cons_of_mem p hq))

/-- Claim C5 (amended): for a candidate whose normalized form is empty, if no
index key is itself the empty string (and the index is well-formed: bucket
members normalize to their key) then the matcher returns no record — not
because the empty token set fails the overlap pre-filter (it passes it
vacuously, since min(2,0) = 0) but because every computed ratio against a
nonempty representative is 0, which never strictly improves the initial best
similarity 0.  (As stated the claim fails: when some indexed title also
normalizes to the empty string, the empty candidate exact-matches that key,
see `c5_counterexample`.) -/
theorem c5_empty_candidate_no_match (similarityFn : String → String → Rat)
    (idx : List (String × List CompanyData)) (threshold : Rat) (g : String)
    (hg : normalize_company_name g = "")
    (hkeys : ∀ p ∈ idx, p.1 ≠ "")
    (hwf : ∀ p ∈ idx, ∀ c ∈ p.2, normalize_company_name c.title = p.1)
    (hsim : ∀ s, s ≠ "" → similarityFn "" s = 0) :
    match_gcs_one similarityFn idx threshold g = (none, 0) := by
  have hfind : idx.find? (fun p => p.1 == normalize_company_name g) = none := by
    rw [List.find?_eq_none]
    intro p hp
    simp only [hg, beq_iff_eq]
    exact hkeys p hp
  have hw : candidate_words g = [] := by
    rw [candidate_words, hg]
    rfl
  simp only [match_gcs_one]
  rw [hfind, hw]
  exact match_loop_empty_words similarityFn threshold g hg hsim idx hkeys hwf

/-- Claim C5 counterexample: the company titled "!!!" normalizes to the empty
string, so the index built from it carries the empty string as a key; the
empty candidate then exact-matches that key and the matcher returns the
record with similarity 1.0 — contradicting the claim that an empty candidate
never matches. -/
theorem c5_counterexample :
    match_gcs_one sim_zero (build_normalized_index [c_bang]) (mkRat 1 2) ""
      = (some c_bang, 1) := by
  decide

/-- Claim C5 witness: instantiation of `c5_empty_candidate_no_match` with the
index of {"acme steel"} and a similarity oracle agreeing with difflib on the
empty string. -/
theorem c5_empty_candidate_no_match_witness :
    match_gcs_one sim_empty_aware (build_normalized_index [c_steel]) (mkRat 1 2) ""
      = (none, 0) :=
  c5_empty_candidate_no_match sim_empty_aware (build_normalized_index [c_steel]) (mkRat 1 2)
    "" (by decide) (by decide) (by decide) (fun s hs => if_neg hs)

theorem insertSorted_perm (r : ImageRow) : ∀ l : List ImageRow, (insertSorted r l).Perm (r :: l) := by
  intro l
  induction l with
  | nil => exact List.Perm.refl _
  | cons x xs ih =>
    unfold insertSorted
    by_cases h : r.id_photo_cleaned ≤ x.id_photo_cleaned
    · rw [if_pos h]
    · rw [if_neg h]
      exact (ih.cons x).trans (List.Perm.swap r x xs)

theorem sortByPhotoId_perm : ∀ l : List ImageRow, (sortByPhotoId l).Perm l := by
  intro l
  induction l with
  | nil => exact List.Perm.refl _
  | cons x xs ih => exact (insertSorted_perm x (sortByPhotoId xs)).trans (ih.cons x)

theorem mem_get_images (t : List ImageRow) (e : Nat) (r : ImageRow) :
    r ∈ get_images_to_process t e ↔ r ∈ t ∧ isPendingRow r = true ∧ r.id_scraping = e := by
  unfold get_images_to_process
  rw [(sortByPhotoId_perm _).mem_iff, List.mem_filter]
  simp [and_assoc]

theorem get_images_ids_nodup (t : List ImageRow) (e : Nat)
    (h : (t.map (fun r => r.id_photo_cleaned)).Nodup) :
    ((get_images_to_process t e).map (fun r => r.id_photo_cleaned)).Nodup := by
  unfold get_images_to_process
  have hperm := (sortByPhotoId_perm
    (t.filter (fun r => isPendingRow r && r.id_scraping == e))).map
      (fun r => r.id_photo_cleaned)
  rw [hperm.nodup_iff]
  exact ((List.filter_sublist t).map (fun r => r.id_photo_cleaned)).nodup h

/-- Claim C9: the Pending-Work Selector returns the smallest entity key owning
at least one pending (post, unclassified, non-timed-out) image, and returns
none exactly when no row is pending. -/
theorem c9_selector_min_pending (t : List ImageRow) :
    (get_next_pending_id_scraping t = none ↔ ∀ r ∈ t, isPendingRow r = false) ∧
    (∀ e, get_next_pending_id_scraping t = some e →
       (∃ r ∈ t, isPendingRow r = true ∧ r.id_scraping = e) ∧
       (∀ r ∈ t, isPendingRow r = true → e ≤ r.id_scraping)) := by
  constructor
  · rw [get_next_pending_id_scraping, List.min?_eq_none_iff, List.map_eq_nil_iff,
      List.filter_eq_nil_iff]
    simp only [Bool.not_eq_true]
  · intro e he
    rw [get_next_pending_id_scraping] at he
    haveI : Std.Antisymm ((· ≤ ·) : Nat → Nat → Prop) :=
      ⟨fun h1 h2 => Nat.le_antisymm h1 h2⟩
    have h3 := (List.min?_eq_some_iff (fun a => Nat.le_refl a) (fun a b => min_choice a b)
      (fun _ _ _ => le_min_iff)).mp he
    constructor
    · rcases List.mem_map.mp h3.1 with ⟨r, hrf, hre⟩
      rcases List.mem_filter.mp hrf with ⟨hrt, hrp⟩
      exact ⟨r, hrt, hrp, hre⟩
    · intro r hr hp
      exact h3.2 r.id_scraping
        (List.mem_map.mpr ⟨r, List.mem_filter.mpr ⟨hr, hp⟩, rfl⟩)

/-- Claim C9 witness: on the table with pending sets {entity 1: two pending,
entity 2: none} the Selector returns entity 1 (applied via the theorem at
`t0`), and after both entity-1 images resolve nothing is pending (applied via
the theorem at `t_done`). -/
theorem c9_selector_min_pending_witness :
    ((∃ r ∈ t0, isPendingRow r = true ∧ r.id_scraping = 1) ∧
      (∀ r ∈ t0, isPendingRow r = true → 1 ≤ r.id_scraping)) ∧
    (∀ r ∈ t_done, isPendingRow r = false) := by
  constructor
  · exact (c9_selector_min_pending t0).2 1 (by decide)
  · exact (c9_selector_min_pending t_done).1.mp (by decide)

/-- Claim C8: when the classification call raises a runtime error other than
a timeout, the worker records is_construction_image = false with zero token
counters for that image; the image is therefore no longer pending and is
excluded from every subsequent per-entity selection. -/
theorem c8_error_fallback (t : List ImageRow) (rid et ts : Nat) :
    (process_single_image (CallOutcome.raised et ts) t rid).2 = some false ∧
    ∀ row ∈ (process_single_image (CallOutcome.raised et ts) t rid).1,
      row.id_photo_cleaned = rid →
        row.is_construction_image = some false ∧ row.token_input = some 0 ∧
        row.token_output = some 0 ∧ isPendingRow row = false ∧
        (∀ e2, row ∉ get_images_to_process
            (process_single_image (CallOutcome.raised et ts) t rid).1 e2) := by
  refine ⟨rfl, ?_⟩
  intro row hrow hid
  rcases List.mem_map.mp hrow with ⟨orig, horig, hstep⟩
  have hmatch : orig.id_photo_cleaned = rid := by
    by_cases h : (orig.id_photo_cleaned == rid) = true
    · exact beq_iff_eq.mp h
    · exfalso
      rw [← hstep] at hid
      unfold stepRow at hid
      rw [if_neg h] at hid
      exact h (beq_iff_eq.mpr hid)
  have hrow2 : row = applyOutcome (CallOutcome.raised et ts) orig := by
    rw [← hstep]
    unfold stepRow
    rw [if_pos (beq_iff_eq.mpr hmatch)]
  refine ⟨?_, ?_, ?_, ?_, ?_⟩
  · rw [hrow2]; rfl
  · rw [hrow2]; rfl
  · rw [hrow2]; rfl
  · rw [hrow2]; simp [isPendingRow, applyOutcome]
  · intro e2 hmem
    have hp := ((mem_get_images _ _ _).mp hmem).2.1
    rw [hrow2] at hp
    simp [isPendingRow, applyOutcome] at hp

/-- Claim C8 witness: instantiation of `c8_error_fallback` on the concrete
table `t0` at image 11, checking the worker's return value and that the
updated row is no longer pending. -/
theorem c8_error_fallback_witness :
    (process_single_image (CallOutcome.raised 3 50) t0 11).2 = some false ∧
    isPendingRow (applyOutcome (CallOutcome.raised 3 50) r11) = false := by
  have h := c8_error_fallback t0 11 3 50
  refine ⟨h.1, ?_⟩
  have h2 := h.2 (applyOutcome (CallOutcome.raised 3 50) r11) (by decide) (by decide)
  exact h2.2.2.2.1

theorem applyOutcome_id (o : CallOutcome) (r : ImageRow) :
    (applyOutcome o r).id_photo_cleaned = r.id_photo_cleaned := by
  cases o <;> rfl

theorem stepRow_id (o : CallOutcome) (rid : Nat) (row : ImageRow) :
    (stepRow o rid row).id_photo_cleaned = row.id_photo_cleaned := by
  unfold stepRow
  split
  · exact applyOutcome_id _ _
  · rfl

theorem process_entity_images_fst (env : ImageRow → CallOutcome) :
    ∀ (l t : List ImageRow),
      (process_entity_images env t l).1
        = t.map (fun row =>
            l.foldl (fun acc s => stepRow (env s) s.id_photo_cleaned acc) row) := by
  intro l
  induction l with
  | nil =>
    intro t
    simp [process_entity_images]
  | cons r rs ih =>
    intro t
    have h1 : (process_entity_images env t (r :: rs)).1
        = (process_entity_images env (t.map (stepRow (env r) r.id_photo_cleaned)) rs).1 := rfl
    rw [h1, ih, List.map_map]
    refine List.map_congr_left ?_
    intro row _
    rw [List.foldl_cons]
    rfl

theorem foldl_stepRow_id (env : ImageRow → CallOutcome) :
    ∀ (l : List ImageRow) (row : ImageRow),
      (l.foldl (fun acc s => stepRow (env s) s.id_photo_cleaned acc) row).id_photo_cleaned
        = row.id_photo_cleaned := by
  intro l
  induction l with
  | nil => intro row; rfl
  | cons s ss ih =>
    intro row
    rw [List.foldl_cons, ih, stepRow_id]

theorem foldl_stepRow_skip (env : ImageRow → CallOutcome) :
    ∀ (l : List ImageRow) (row : ImageRow),
      row.id_photo_cleaned ∉ l.map (fun s => s.id_photo_cleaned) →
      l.foldl (fun acc s => stepRow (env s) s.id_photo_cleaned acc) row = row := by
  intro l
  induction l with
  | nil => intro row _; rfl
  | cons s ss ih =>
    intro row hnot
    rw [List.foldl_cons]
    have h1 : row.id_photo_cleaned ≠ s.id_photo_cleaned := by
      intro h
      exact hnot (by rw [List.map_cons, h]; exact List.mem_cons_self _ _)
    have hstep : stepRow (env s) s.id_photo_cleaned row = row := by
      unfold stepRow
      rw [if_neg (by simp [h1])]
    rw [hstep]
    exact ih row (fun hmem => hnot (by rw [List.map_cons]; exact List.mem_cons_of_mem _ hmem))

theorem foldl_stepRow_hit (env : ImageRow → CallOutcome) :
    ∀ (l : List ImageRow) (row s : ImageRow),
      (l.map (fun x => x.id_photo_cleaned)).Nodup → s ∈ l →
      row.id_photo_cleaned = s.id_photo_cleaned →
      l.foldl (fun acc x => stepRow (env x) x.id_photo_cleaned acc) row
        = applyOutcome (env s) row := by
  intro l
  induction l with
  | nil =>
    intro row s _ hs
    exact absurd hs (List.not_mem_nil s)
  | cons x xs ih =>
    intro row s hnodup hs hid
    rw [List.map_cons, List.nodup_cons] at hnodup
    rw [List.foldl_cons]
    rcases List.mem_cons.mp hs with rfl | hs2
    · have hstep : stepRow (env s) s.id_photo_cleaned row = applyOutcome (env s) row := by
        unfold stepRow
        rw [if_pos (by simp [hid])]
      rw [hstep]
      apply foldl_stepRow_skip
      rw [applyOutcome_id, hid]
      exact hnodup.1
    · have hxne : row.id_photo_cleaned ≠ x.id_photo_cleaned := by
        rw [hid]
        intro h
        exact hnodup.1 (h ▸ List.mem_map.mpr ⟨s, hs2, rfl⟩)
      have hstep : stepRow (env x) x.id_photo_cleaned row = row := by
        unfold stepRow
        rw [if_neg (by simp [hxne])]
      rw [hstep]
      exact ih row s hnodup.2 hs2 hid

/-- Claim C4: timeout isolation — if the call for a selected image times out,
the worker's per-entity run leaves that image's row with `time_out = true`
and every classification field untouched; the row is then no longer pending,
so both the Selector's pending aggregation and every later per-entity
selection exclude it; and every other selected image of the entity is still
processed according to its own call outcome. -/
theorem c4_timeout_isolation (env : ImageRow → CallOutcome) (t : List ImageRow) (e : Nat)
    (r : ImageRow)
    (hnodup : (t.map (fun x => x.id_photo_cleaned)).Nodup)
    (hr : r ∈ get_images_to_process t e)
    (ht : env r = CallOutcome.timedOut) :
    (∀ row ∈ (process_entity_images env t (get_images_to_process t e)).1,
       row.id_photo_cleaned = r.id_photo_cleaned →
         row = { r with time_out := some true } ∧
         isPendingRow row = false ∧
         (∀ e2, row ∉ get_images_to_process
             (process_entity_images env t (get_images_to_process t e)).1 e2) ∧
         row ∉ ((process_entity_images env t (get_images_to_process t e)).1.filter
             isPendingRow)) ∧
    (∀ s ∈ get_images_to_process t e,
       ∀ row ∈ (process_entity_images env t (get_images_to_process t e)).1,
         row.id_photo_cleaned = s.id_photo_cleaned → row = applyOutcome (env s) s) := by
  have hmain : ∀ s ∈ get_images_to_process t e,
      ∀ row ∈ (process_entity_images env t (get_images_to_process t e)).1,
        row.id_photo_cleaned = s.id_photo_cleaned → row = applyOutcome (env s) s := by
    intro s hs row hrow hid
    rw [process_entity_images_fst] at hrow
    rcases List.mem_map.mp hrow with ⟨orig, horig, hfold⟩
    have hoid : orig.id_photo_cleaned = s.id_photo_cleaned := by
      rw [← hid, ← hfold, foldl_stepRow_id]
    have hsmem : s ∈ t := ((mem_get_images t e s).mp hs).1
    have horigeq : orig = s := List.inj_on_of_nodup_map hnodup horig hsmem hoid
    rw [← hfold,
      foldl_stepRow_hit env (get_images_to_process t e) orig s
        (get_images_ids_nodup t e hnodup) hs hoid, horigeq]
  refine ⟨?_, hmain⟩
  intro row hrow hid
  have hrowval : row = applyOutcome (env r) r := hmain r hr row hrow hid
  rw [ht] at hrowval
  have htime : row = { r with time_out := some true } := hrowval
  refine ⟨htime, ?_, ?_, ?_⟩
  · rw [htime]
    simp [isPendingRow]
  · intro e2 hmem
    have hp := ((mem_get_images _ _ _).mp hmem).2.1
    rw [htime] at hp
    simp [isPendingRow] at hp
  · intro hmem
    have hp := (List.mem_filter.mp hmem).2
    rw [htime] at hp
    simp [isPendingRow] at hp

/-- Claim C4 witness: on `t0` with oracle `env0` (image 10 succeeds, image 11
times out), the timed-out image's updated row is no longer pending and is
excluded from every later per-entity selection. -/
theorem c4_timeout_isolation_witness :
    isPendingRow { r11 with time_out := some true } = false ∧
    (∀ e2, ({ r11 with time_out := some true } : ImageRow)
        ∉ get_images_to_process
            (process_entity_images env0 t0 (get_images_to_process t0 1)).1 e2) := by
  have h := (c4_timeout_isolation env0 t0 1 r11 (by decide) (by decide) (by decide)).1
    { r11 with time_out := some true } (by decide) (by decide)
  exact ⟨h.2.1, h.2.2.1⟩

theorem success_le_processed (env : ImageRow → CallOutcome) :
    ∀ (l t : List ImageRow),
      (process_entity_images env t l).2.success_count
        ≤ (process_entity_images env t l).2.processed_count := by
  intro l
  induction l with
  | nil => intro t; exact Nat.le_refl 0
  | cons r rs ih =>
    intro t
    cases henv : env r with
    | timedOut =>
      simp [process_entity_images, process_single_image, bumpCounters, henv]
      exact ih _
    | ok b p ti tu et ts =>
      cases b
      · simp [process_entity_images, process_single_image, bumpCounters, henv]
        exact Nat.le_succ_of_le (ih _)
      · simp [process_entity_images, process_single_image, bumpCounters, henv]
        exact ih _
    | raised et ts =>
      simp [process_entity_images, process_single_image, bumpCounters, henv]
      exact Nat.le_succ_of_le (ih _)

/-- Claim C1 (amended): after a `process_images_batch` run, the entity's
images_processed flag is written iff the run's processed count is positive,
i.e. iff at least one selected image's call returned without timing out
(`processed_count > 0`, which subsumes `success_count > 0`); the final
completion re-query is executed but only logged — it does not gate the flag.
(As stated the claim fails, see `c1_counterexample`.) -/
theorem c1_flag_iff_processed (env : ImageRow → CallOutcome) (raw : List CompanyRow)
    (t : List ImageRow) :
    (process_images_batch env raw t).flag_updated
      = decide (0 < (process_images_batch env raw t).stats.processed_count) := by
  unfold process_images_batch
  cases hsel : get_next_pending_id_scraping t with
  | none => rfl
  | some e =>
    by_cases hv : verify_company_completion t e
    · simp [hv]
    · by_cases hemp : (get_images_to_process t e).isEmpty
      · simp [hv, hemp]
      · by_cases hcond :
          0 < (process_entity_images env t (get_images_to_process t e)).2.processed_count ∨
          0 < (process_entity_images env t (get_images_to_process t e)).2.success_count
        · have hp : 0 < (process_entity_images env t
              (get_images_to_process t e)).2.processed_count :=
            hcond.elim id
              (fun h => lt_of_lt_of_le h (success_le_processed env (get_images_to_process t e) t))
          simp [hv, hemp, hcond, hp]
        · have hp : ¬ 0 < (process_entity_images env t
              (get_images_to_process t e)).2.processed_count :=
            fun h => hcond (Or.inl h)
          have hs : ¬ 0 < (process_entity_images env t
              (get_images_to_process t e)).2.success_count :=
            fun h => hcond (Or.inr h)
          simp [hv, hemp, hp, hs]

/-- Claim C1 counterexample: entity 1 has two pending images; image 10
classifies successfully, image 11 times out.  The final completion re-query
still reports a pending image (`final_verify = some false`), yet the run
writes `images_processed = true` for the entity — refuting the claim that
the flag is set only when the re-query returns zero pending images. -/
theorem c1_counterexample :
    (process_images_batch env0 raw0 t0).flag_updated = true ∧
    (process_images_batch env0 raw0 t0).final_verify = some false ∧
    (process_images_batch env0 raw0 t0).raw.map (fun c => c.images_processed) = [true] := by
  refine ⟨by decide, by decide, by decide⟩
